import Mathlib

/-!
Verification development for the notification-service repository
(Go, `duynhne/notification-service`).

The development shallowly embeds the persistence and service layers that
the specification describes:

* `internal/core/domain/notification.go` — the `Notification` entity and
  the request types;
* `internal/core/notification_repository.go` — the repository
  (`Create`, `FindByID`, `ListByUserID`, `MarkAsRead`,
  `CountUnreadByUserID`) over the single `notifications` table;
* the repository-based service layer (`SendEmail`, `SendSMS`,
  `ListNotifications`, `GetNotification`, `MarkAsRead`, `CountUnread`).

The database is modelled as an explicit state: a list of rows, the next
SERIAL key, and a monotone clock supplying `created_at` values.  Go
library functions are modelled explicitly: `strconv.Atoi` as `atoi?`,
`strconv.Itoa` as `itoa` (via `Int.repr`), and the RFC3339 rendering of
a timestamp as `fmtTime` (a non-empty, injective rendering of the
abstract clock tick).  Fallible operations return `Except` values over
the sentinel error taxonomy of the service package.
-/

namespace NotifSvc

/-- Model of Go `strconv.Atoi` digit loop: accumulates the decimal value
of a non-empty digit string, failing on any non-digit character. -/
def parseDigits : List Char → Nat → Option Nat
  | [], acc => some acc
  | c :: cs, acc =>
      if c.isDigit then parseDigits cs (acc * 10 + (c.toNat - 48)) else none

/-- Model of Go `strconv.Atoi`: an optional sign followed by at least
one decimal digit; every other string is a parse failure. -/
def atoi? (s : String) : Option Int :=
  match s.data with
  | [] => none
  | '-' :: cs =>
      if cs.isEmpty then none else (parseDigits cs 0).map (fun n => -(n : Int))
  | '+' :: cs =>
      if cs.isEmpty then none else (parseDigits cs 0).map (fun n => (n : Int))
  | cs => (parseDigits cs 0).map (fun n => (n : Int))

/-- Model of Go `strconv.Itoa`: decimal rendering of a machine integer. -/
def itoa (n : Int) : String := Int.repr n

/-- Model of `time.Time.Format(time.RFC3339)` applied to the storage
clock: an abstract rendering of the tick that is non-empty and
injective, which is all the code relies on. -/
def fmtTime (t : Nat) : String := Nat.repr t

/-- A stored row of the `notifications` table
(schema `V1__init_schema.sql`): SERIAL key, owner reference, nullable
text columns, read flag, creation timestamp. -/
structure Row where
  id : Int
  userId : Int
  title : Option String
  message : Option String
  type : Option String
  read : Bool
  createdAt : Nat
deriving DecidableEq, Repr

/-- The domain entity `domain.Notification` (string `ID`/`CreatedAt`,
API-only `Status`). -/
structure Notification where
  id : String
  type : String
  title : String
  message : String
  status : String
  read : Bool
  createdAt : String
deriving DecidableEq, Repr

/-- The body of a `POST /notify/email` request (`domain.SendEmailRequest`). -/
structure SendEmailRequest where
  «to» : String
  subject : String
  body : String
deriving DecidableEq, Repr

/-- The body of a `POST /notify/sms` request (`domain.SendSMSRequest`). -/
structure SendSMSRequest where
  «to» : String
  message : String
deriving DecidableEq, Repr

/-- The persistent state backing the repository: the rows of the
`notifications` table, the next SERIAL key, and a monotone clock that
supplies `created_at` defaults. -/
structure DBState where
  rows : List Row
  nextId : Int
  now : Nat
deriving DecidableEq, Repr

/-- The error conditions the service layer can surface (sentinels from
the logic package, plus the plain validation failures of `CountUnread`). -/
inductive ServiceErr where
  | notificationNotFound
  | invalidRecipient
  | invalidIdentity (msg : String)
deriving DecidableEq, Repr

/-- Conversion of a stored row to the domain entity, exactly as the scan
blocks of `FindByID` and `ListByUserID` build it: `ID` via `Itoa`,
`Status` fixed to `"sent"`, NULL text columns read as empty strings,
then the backward-compat fallback that copies the non-empty one of
title/message onto the empty one. -/
def rowToNotification (r : Row) : Notification :=
  let title0 := r.title.getD ""
  let message0 := r.message.getD ""
  let title := if title0 = "" ∧ message0 ≠ "" then message0 else title0
  let message := if message0 = "" ∧ title0 ≠ "" then title0 else message0
  { id := itoa r.id
    type := r.type.getD ""
    title := title
    message := message
    status := "sent"
    read := r.read
    createdAt := fmtTime r.createdAt }

namespace NotificationRepository

/-- Repository `CountUnreadByUserID`: the SQL count of rows with the
given owner and `read = false`. -/
def CountUnreadByUserID (st : DBState) (userID : Int) : Nat :=
  (st.rows.filter (fun r => r.userId == userID && !r.read)).length

/-- Repository `Create`: coalesces title/message for the inserted row
(title from message when empty, then message from title), appends the
row with `read = false` and storage-assigned key and timestamp, and
returns the entity with `ID`, `CreatedAt`, `Read`, `Status` populated
from the storage-assigned values (its other fields unchanged). -/
def Create (st : DBState) (n : Notification) (userID : Int) :
    Notification × DBState :=
  let title := if n.title = "" then n.message else n.title
  let message := if n.message = "" then title else n.message
  let row : Row :=
    { id := st.nextId
      userId := userID
      title := some title
      message := some message
      type := some n.type
      read := false
      createdAt := st.now }
  let entity :=
    { n with
        id := itoa st.nextId
        createdAt := fmtTime st.now
        read := false
        status := "sent" }
  (entity, { rows := st.rows ++ [row], nextId := st.nextId + 1, now := st.now + 1 })

/-- Repository `FindByID`: the first row whose key matches, converted to
the domain entity; `none` models the `pgx.ErrNoRows` path that returns a
nil entity to the caller. -/
def FindByID (st : DBState) (id : Int) : Option Notification :=
  (st.rows.find? (fun r => r.id == id)).map rowToNotification

/-- The `ORDER BY created_at DESC` relation used by `ListByUserID`. -/
def rowGE (a b : Row) : Prop := b.createdAt ≤ a.createdAt

instance : DecidableRel rowGE := fun a b =>
  inferInstanceAs (Decidable (b.createdAt ≤ a.createdAt))

instance : IsTotal Row rowGE := ⟨fun a b => Nat.le_total b.createdAt a.createdAt⟩

instance : IsTrans Row rowGE :=
  ⟨fun _ _ _ h1 h2 => Nat.le_trans h2 h1⟩

/-- Repository `ListByUserID`: the rows of the given owner ordered by
`created_at` descending, converted to entities.  The Go function
declares a nil slice and appends one entity per scanned row, so a user
with zero rows yields the nil slice — modelled as `none` — while any
non-empty result is a real slice, modelled as `some`. -/
def ListByUserID (st : DBState) (userID : Int) : Option (List Notification) :=
  let l := (List.insertionSort rowGE
      (st.rows.filter (fun r => r.userId == userID))).map rowToNotification
  if l.isEmpty then none else some l

/-- The row transformation of the SQL
`UPDATE notifications SET read = true WHERE id = $1`. -/
def markRow (id : Int) (r : Row) : Row :=
  if r.id = id then { r with read := true } else r

/-- Repository `MarkAsRead`: runs the unconditional update and reports
whether any row was affected (`RowsAffected() > 0`). -/
def MarkAsRead (st : DBState) (id : Int) : Bool × DBState :=
  let affected := st.rows.countP (fun r => r.id == id)
  (decide (0 < affected), { st with rows := st.rows.map (markRow id) })

end NotificationRepository

namespace NotificationService

open NotificationRepository

/-- Service `SendEmail`: rejects an empty recipient or the literal
sentinel `"invalid"` with `ErrInvalidRecipient`; otherwise builds the
entity with `Type = "email"` and both title and message set to the
subject, and delegates to repository `Create` under the mock user 1. -/
def SendEmail (st : DBState) (req : SendEmailRequest) :
    Except ServiceErr Notification × DBState :=
  if req.«to» = "" ∨ req.«to» = "invalid" then
    (.error .invalidRecipient, st)
  else
    let n : Notification :=
      { id := "", type := "email", title := req.subject,
        message := req.subject, status := "", read := false, createdAt := "" }
    let res := Create st n 1
    (.ok res.1, res.2)

/-- Service `SendSMS`: no recipient validation; builds the entity with
`Type = "sms"`, `Title = "SMS"`, `Message` from the request body, and
delegates to repository `Create` under the mock user 1. -/
def SendSMS (st : DBState) (req : SendSMSRequest) :
    Except ServiceErr Notification × DBState :=
  let n : Notification :=
    { id := "", type := "sms", title := "SMS",
      message := req.message, status := "", read := false, createdAt := "" }
  let res := Create st n 1
  (.ok res.1, res.2)

/-- Service `ListNotifications`: parses the identity, silently falling
back to user 1 on an empty or unparseable string, queries the
repository, and converts a nil slice to an empty one before returning. -/
def ListNotifications (st : DBState) (userID : String) : List Notification :=
  let uid : Int :=
    if userID = "" then 1
    else match atoi? userID with
      | some parsed => parsed
      | none => 1
  match ListByUserID st uid with
  | none => []
  | some l => l

/-- Service `GetNotification`: a parse failure of the id and a nil
repository result are both surfaced as `ErrNotificationNotFound`. -/
def GetNotification (st : DBState) (id : String) :
    Except ServiceErr Notification :=
  match atoi? id with
  | none => .error .notificationNotFound
  | some nid =>
      match FindByID st nid with
      | none => .error .notificationNotFound
      | some n => .ok n

/-- Service `MarkAsRead`: parse failure surfaces
`ErrNotificationNotFound`; zero rows affected surfaces
`ErrNotificationNotFound`; otherwise the entity is re-fetched from the
updated state via `GetNotification`. -/
def MarkAsRead (st : DBState) (id : String) :
    Except ServiceErr Notification × DBState :=
  match atoi? id with
  | none => (.error .notificationNotFound, st)
  | some nid =>
      let res := NotificationRepository.MarkAsRead st nid
      if res.1 then
        (GetNotification res.2 id, res.2)
      else
        (.error .notificationNotFound, res.2)

/-- Service `CountUnread`: rejects an empty, unparseable, or
non-positive identity outright with the corresponding validation error,
and otherwise returns the repository count of unread rows. -/
def CountUnread (st : DBState) (userID : String) : Except ServiceErr Nat :=
  if userID = "" then
    .error (.invalidIdentity "user_id is required")
  else
    match atoi? userID with
    | none => .error (.invalidIdentity ("invalid user_id: " ++ userID))
    | some uid =>
        if uid ≤ 0 then
          .error (.invalidIdentity ("invalid user_id: " ++ userID))
        else
          .ok (CountUnreadByUserID st uid)

end NotificationService

/-- The operations the service exposes, as abstract events over the
stored state. -/
inductive Op where
  | sendEmail (req : SendEmailRequest)
  | sendSMS (req : SendSMSRequest)
  | listNotifications (userID : String)
  | getNotification (id : String)
  | markAsRead (id : String)
  | countUnread (userID : String)
deriving DecidableEq, Repr

/-- The state transition of one service operation (read operations do
not change the stored state). -/
def applyOp (st : DBState) : Op → DBState
  | .sendEmail req => (NotificationService.SendEmail st req).2
  | .sendSMS req => (NotificationService.SendSMS st req).2
  | .listNotifications _ => st
  | .getNotification _ => st
  | .markAsRead id => (NotificationService.MarkAsRead st id).2
  | .countUnread _ => st

/-- The state reached after a sequence of service operations. -/
def run (st : DBState) (ops : List Op) : DBState :=
  ops.foldl applyOp st

/-! Helper lemmas about the modelled Go library functions. -/

theorem toDigitsCore_length_le (b fuel n : Nat) (ds : List Char) :
    ds.length ≤ (Nat.toDigitsCore b fuel n ds).length := by
  induction fuel generalizing n ds with
  | zero => exact Nat.le_refl _
  | succ fuel ih =>
    rw [Nat.toDigitsCore]
    split
    · exact Nat.le_succ _
    · exact Nat.le_trans (Nat.le_succ _) (ih (n / b) ((n % b).digitChar :: ds))

theorem toDigitsCore_ne_nil (b fuel n : Nat) (ds : List Char) :
    Nat.toDigitsCore b (fuel + 1) n ds ≠ [] := by
  rw [Nat.toDigitsCore]
  split
  · simp
  · intro h
    have hle := toDigitsCore_length_le b fuel (n / b) (Nat.digitChar (n % b) :: ds)
    rw [h] at hle
    simp at hle

theorem natRepr_ne_empty (n : Nat) : Nat.repr n ≠ "" := by
  intro h
  have h2 : Nat.toDigitsCore 10 (n + 1) n [] = [] := congrArg String.data h
  exact toDigitsCore_ne_nil 10 n n [] h2

theorem fmtTime_ne_empty (t : Nat) : fmtTime t ≠ "" :=
  natRepr_ne_empty t

theorem itoa_ne_empty (n : Int) : itoa n ≠ "" := by
  unfold itoa Int.repr
  cases n with
  | ofNat m => exact natRepr_ne_empty m
  | negSucc m =>
    intro h
    have hl := congrArg String.length h
    rw [String.length_append] at hl
    have h1 : "-".length = 1 := rfl
    have h0 : "".length = 0 := rfl
    rw [h1, h0] at hl
    omega

theorem atoi?_empty : atoi? "" = none := rfl

theorem ne_empty_of_atoi?_eq_some {s : String} {n : Int}
    (h : atoi? s = some n) : s ≠ "" := by
  intro he
  rw [he, atoi?_empty] at h
  exact Option.noConfusion h

/-! Helper lemmas about the row-level update of `MarkAsRead`. -/

namespace NotificationRepository

theorem markRow_id (nid : Int) (r : Row) : (markRow nid r).id = r.id := by
  unfold markRow
  split <;> rfl

theorem markRow_idem (nid : Int) (r : Row) :
    markRow nid (markRow nid r) = markRow nid r := by
  unfold markRow
  split <;> simp_all

theorem markRow_of_eq (nid : Int) (r : Row) (h : r.id = nid) :
    markRow nid r = { r with read := true } := by
  unfold markRow
  simp [h]

theorem find?_map_markRow (nid : Int) (l : List Row) :
    (l.map (markRow nid)).find? (fun r => r.id == nid)
      = (l.find? (fun r => r.id == nid)).map (markRow nid) := by
  induction l with
  | nil => rfl
  | cons a l ih =>
    by_cases h : a.id = nid
    · simp [List.find?_cons, markRow_id, h]
    · have hb : (a.id == nid) = false := by simp [h]
      simp [List.find?_cons, markRow_id, hb, ih]

end NotificationRepository

/-- Splitting the rows of one user into read and unread parts: total
equals read plus unread. -/
theorem length_filter_split (l : List Row) (uid : Int) :
    (l.filter (fun r => r.userId == uid)).length
      = (l.filter (fun r => r.userId == uid && r.read)).length
        + (l.filter (fun r => r.userId == uid && !r.read)).length := by
  induction l with
  | nil => rfl
  | cons a l ih =>
    by_cases hu : a.userId = uid
    · cases hr : a.read <;> simp [List.filter_cons, hu, hr] <;> omega
    · simp [List.filter_cons, hu, ih]

/-- The unread count of a user equals total minus read. -/
theorem length_filter_unread (l : List Row) (uid : Int) :
    (l.filter (fun r => r.userId == uid && !r.read)).length
      = (l.filter (fun r => r.userId == uid)).length
        - (l.filter (fun r => r.userId == uid && r.read)).length := by
  have h := length_filter_split l uid
  omega

/-! Helper machinery for reachability: rows persist with immutable
fields unchanged and a monotone read flag. -/

/-- Row preservation: same identity and immutable columns, and the read
flag never falls back from true. -/
def preservedRow (r r' : Row) : Prop :=
  r'.id = r.id ∧ r'.userId = r.userId ∧ r'.title = r.title ∧
    r'.message = r.message ∧ r'.type = r.type ∧
    r'.createdAt = r.createdAt ∧ (r.read = true → r'.read = true)

/-- List-level preservation: every old row survives, preserved. -/
def preserved (old new : List Row) : Prop :=
  ∀ r ∈ old, ∃ r' ∈ new, preservedRow r r'

theorem preservedRow_refl (r : Row) : preservedRow r r :=
  ⟨rfl, rfl, rfl, rfl, rfl, rfl, fun h => h⟩

theorem preservedRow_trans {a b c : Row}
    (h1 : preservedRow a b) (h2 : preservedRow b c) : preservedRow a c := by
  obtain ⟨i1, u1, t1, m1, y1, c1, r1⟩ := h1
  obtain ⟨i2, u2, t2, m2, y2, c2, r2⟩ := h2
  exact ⟨i2.trans i1, u2.trans u1, t2.trans t1, m2.trans m1, y2.trans y1,
    c2.trans c1, fun h => r2 (r1 h)⟩

theorem preserved_refl (l : List Row) : preserved l l :=
  fun r hr => ⟨r, hr, preservedRow_refl r⟩

theorem preserved_trans {a b c : List Row}
    (h1 : preserved a b) (h2 : preserved b c) : preserved a c := by
  intro r hr
  obtain ⟨r', hr', hp⟩ := h1 r hr
  obtain ⟨r'', hr'', hp'⟩ := h2 r' hr'
  exact ⟨r'', hr'', preservedRow_trans hp hp'⟩

theorem preserved_append (old extra : List Row) :
    preserved old (old ++ extra) :=
  fun r hr => ⟨r, List.mem_append_left extra hr, preservedRow_refl r⟩

theorem preserved_markRow (l : List Row) (nid : Int) :
    preserved l (l.map (NotificationRepository.markRow nid)) := by
  intro r hr
  refine ⟨NotificationRepository.markRow nid r, List.mem_map_of_mem _ hr, ?_⟩
  unfold NotificationRepository.markRow
  split
  · exact ⟨rfl, rfl, rfl, rfl, rfl, rfl, fun _ => rfl⟩
  · exact preservedRow_refl r

/-- Every single service operation preserves the stored rows. -/
theorem applyOp_preserves (st : DBState) (op : Op) :
    preserved st.rows (applyOp st op).rows := by
  cases op with
  | sendEmail req =>
    simp only [applyOp, NotificationService.SendEmail]
    split
    · exact preserved_refl st.rows
    · exact preserved_append st.rows _
  | sendSMS req =>
    exact preserved_append st.rows _
  | listNotifications s => exact preserved_refl st.rows
  | getNotification s => exact preserved_refl st.rows
  | countUnread s => exact preserved_refl st.rows
  | markAsRead s =>
    simp only [applyOp, NotificationService.MarkAsRead]
    cases h : atoi? s with
    | none => exact preserved_refl st.rows
    | some nid =>
      simp only [NotificationRepository.MarkAsRead]
      split
      · exact preserved_markRow st.rows nid
      · exact preserved_markRow st.rows nid

/-- Every sequence of service operations preserves the stored rows. -/
theorem run_preserves (st : DBState) (ops : List Op) :
    preserved st.rows (run st ops).rows := by
  induction ops generalizing st with
  | nil => exact preserved_refl st.rows
  | cons op ops ih =>
    exact preserved_trans (applyOp_preserves st op) (ih (applyOp st op))

/-- Any row of a post-state whose key was not present before the
operation is a freshly inserted row, and is stored unread. -/
theorem applyOp_fresh_unread (st : DBState) (op : Op) (r' : Row)
    (hmem : r' ∈ (applyOp st op).rows)
    (hfresh : r'.id ∉ st.rows.map Row.id) : r'.read = false := by
  have hold : ∀ r ∈ st.rows, r'.id = r.id → False := by
    intro r hr hid
    exact hfresh (hid ▸ List.mem_map_of_mem Row.id hr)
  cases op with
  | sendEmail req =>
    simp only [applyOp, NotificationService.SendEmail] at hmem
    split at hmem
    · exact absurd rfl (hold r' hmem)
    · simp only [NotificationRepository.Create, List.mem_append,
        List.mem_singleton] at hmem
      rcases hmem with hmem | hmem
      · exact absurd rfl (hold r' hmem)
      · rw [hmem]
  | sendSMS req =>
    simp only [applyOp, NotificationService.SendSMS,
      NotificationRepository.Create, List.mem_append,
      List.mem_singleton] at hmem
    rcases hmem with hmem | hmem
    · exact absurd rfl (hold r' hmem)
    · rw [hmem]
  | listNotifications s => exact absurd rfl (hold r' hmem)
  | getNotification s => exact absurd rfl (hold r' hmem)
  | countUnread s => exact absurd rfl (hold r' hmem)
  | markAsRead s =>
    simp only [applyOp, NotificationService.MarkAsRead] at hmem
    cases h : atoi? s with
    | none =>
      rw [h] at hmem
      exact absurd rfl (hold r' hmem)
    | some nid =>
      rw [h] at hmem
      simp only [NotificationRepository.MarkAsRead] at hmem
      have hmem' : r' ∈ st.rows.map (NotificationRepository.markRow nid) := by
        split at hmem <;> exact hmem
      obtain ⟨r, hr, hrr⟩ := List.mem_map.mp hmem'
      have : r'.id = r.id := by
        rw [← hrr, NotificationRepository.markRow_id]
      exact absurd this.symm fun hh => hold r hr this

/-! Concrete rows and states used as witness inputs. -/

/-- A seeded unread notification row (in the style of the demo seed data). -/
def wRow1 : Row :=
  { id := 1, userId := 1, title := some "Order Shipped",
    message := some "Your order has shipped", type := some "order_shipped",
    read := false, createdAt := 10 }

/-- A seeded already-read row whose title column is empty. -/
def wRow2 : Row :=
  { id := 2, userId := 1, title := some "", message := some "Promo text",
    type := some "promotion", read := true, createdAt := 5 }

/-- A seeded state with two rows for user 1. -/
def wDB : DBState := { rows := [wRow1, wRow2], nextId := 3, now := 20 }

/-- The stored state of the service `MarkAsRead` is the repository
update when the id parses, and the unchanged state otherwise. -/
theorem svcMarkAsRead_state (st : DBState) (id : String) :
    (NotificationService.MarkAsRead st id).2
      = match atoi? id with
        | none => st
        | some nid => (NotificationRepository.MarkAsRead st nid).2 := by
  unfold NotificationService.MarkAsRead
  cases h : atoi? id with
  | none => rfl
  | some nid =>
    dsimp only
    split <;> rfl

/-- Claim C5: the service MarkAsRead is idempotent in effect on the
stored state: running it twice on the same id leaves exactly the state
of running it once, so the unread-to-read transition happens only once. -/
theorem c5_markAsRead_idempotent_on_state (st : DBState) (id : String) :
    (NotificationService.MarkAsRead
        (NotificationService.MarkAsRead st id).2 id).2
      = (NotificationService.MarkAsRead st id).2 := by
  rw [svcMarkAsRead_state, svcMarkAsRead_state]
  cases h : atoi? id with
  | none => simp only [h]
  | some nid =>
    simp only [h]
    simp only [NotificationRepository.MarkAsRead]
    congr 1
    rw [List.map_map]
    exact List.map_congr_left
      (fun r _ => NotificationRepository.markRow_idem nid r)

/-- Claim C6: the repository MarkAsRead reports zero rows affected
exactly when no row with the given id exists; because the update is
unconditional on the read flag, an existing but already-read row is
still affected and the service returns the entity successfully. -/
theorem c6_zero_affected_iff_absent (st : DBState) (id : String) (nid : Int)
    (hparse : atoi? id = some nid) :
    ((NotificationRepository.MarkAsRead st nid).1 = false ↔
        ∀ r ∈ st.rows, r.id ≠ nid) ∧
    (∀ r ∈ st.rows, r.id = nid → r.read = true →
        ∃ n, (NotificationService.MarkAsRead st id).1 = Except.ok n) := by
  constructor
  · simp only [NotificationRepository.MarkAsRead, decide_eq_false_iff_not,
      Nat.not_lt, Nat.le_zero, List.countP_eq_zero, beq_iff_eq]
  · intro r hr hid _
    have hpos : 0 < st.rows.countP (fun r' => r'.id == nid) :=
      List.countP_pos_iff.mpr ⟨r, hr, by simp [hid]⟩
    have hfind : (st.rows.find? (fun r' => r'.id == nid)).isSome :=
      List.find?_isSome.mpr ⟨r, hr, by simp [hid]⟩
    obtain ⟨r0, hr0⟩ := Option.isSome_iff_exists.mp hfind
    unfold NotificationService.MarkAsRead
    rw [hparse]
    dsimp only
    rw [if_pos (by simp [NotificationRepository.MarkAsRead, hpos])]
    unfold NotificationService.GetNotification
    rw [hparse]
    unfold NotificationRepository.FindByID
    simp only [NotificationRepository.MarkAsRead]
    rw [NotificationRepository.find?_map_markRow, hr0]
    exact ⟨_, rfl⟩

/-- Claim C6 witness: in the seeded state, marking the already-read row
2 as read affects a row and the service returns the entity. -/
theorem c6_witness :
    (((NotificationRepository.MarkAsRead wDB 2).1 = false ↔
        ∀ r ∈ wDB.rows, r.id ≠ 2) ∧
      (∀ r ∈ wDB.rows, r.id = 2 → r.read = true →
        ∃ n, (NotificationService.MarkAsRead wDB "2").1 = Except.ok n)) :=
  c6_zero_affected_iff_absent wDB "2" 2 (by decide)

/-- Claim C9: SendEmail fails with the invalid-recipient condition and
inserts nothing when the recipient is empty or the literal sentinel
"invalid"; for any other recipient it succeeds, creating a notification
with type "email" and title and message both equal to the subject under
the fixed placeholder user 1. -/
theorem c9_sendEmail_validation (st : DBState) (req : SendEmailRequest) :
    ((req.«to» = "" ∨ req.«to» = "invalid") →
        NotificationService.SendEmail st req
          = (Except.error ServiceErr.invalidRecipient, st)) ∧
    (req.«to» ≠ "" → req.«to» ≠ "invalid" →
        ∃ n, (NotificationService.SendEmail st req).1 = Except.ok n ∧
          n.type = "email" ∧ n.title = req.subject ∧
          n.message = req.subject ∧ n.read = false ∧ n.status = "sent" ∧
          (NotificationService.SendEmail st req).2.rows
            = st.rows ++ [{ id := st.nextId, userId := 1,
                            title := some req.subject,
                            message := some req.subject,
                            type := some "email", read := false,
                            createdAt := st.now }]) := by
  constructor
  · intro h
    unfold NotificationService.SendEmail
    rw [if_pos h]
  · intro h1 h2
    unfold NotificationService.SendEmail
    rw [if_neg (by simp [h1, h2])]
    refine ⟨_, rfl, rfl, rfl, rfl, rfl, rfl, ?_⟩
    simp [NotificationRepository.Create]

/-- Claim C9 witness: the sentinel recipient fails and leaves the state
unchanged, while a concrete valid recipient creates the email row. -/
theorem c9_witness :
    (NotificationService.SendEmail wDB
        { «to» := "invalid", subject := "x", body := "y" }
      = (Except.error ServiceErr.invalidRecipient, wDB)) ∧
    (∃ n, (NotificationService.SendEmail wDB
        { «to» := "alice@example.com", subject := "Hi", body := "B" }).1
          = Except.ok n ∧
      n.type = "email" ∧ n.title = "Hi" ∧ n.message = "Hi" ∧
      n.read = false ∧ n.status = "sent" ∧
      (NotificationService.SendEmail wDB
        { «to» := "alice@example.com", subject := "Hi", body := "B" }).2.rows
        = wDB.rows ++ [{ id := wDB.nextId, userId := 1,
                         title := some "Hi", message := some "Hi",
                         type := some "email", read := false,
                         createdAt := wDB.now }]) :=
  ⟨(c9_sendEmail_validation wDB
      { «to» := "invalid", subject := "x", body := "y" }).1 (Or.inr rfl),
    (c9_sendEmail_validation wDB
      { «to» := "alice@example.com", subject := "Hi", body := "B" }).2
        (by decide) (by decide)⟩

/-- A notification passed to Create by a direct caller, used by witnesses. -/
def wN0 : Notification :=
  { id := "", type := "promotion", title := "Sale", message := "",
    status := "", read := false, createdAt := "" }

/-- A concrete valid email request, used by witnesses. -/
def wEmailReq : SendEmailRequest :=
  { «to» := "alice@example.com", subject := "S", body := "B" }

/-- A concrete SMS request, used by witnesses. -/
def wSMSReq : SendSMSRequest := { «to» := "555", message := "pickup" }

/-- Claim C2: every successfully created notification (via direct
Create, and via SendEmail and SendSMS) is returned with read false,
status "sent", and non-empty id and created-at populated from the
storage-assigned key and timestamp. -/
theorem c2_created_entity (st st2 st3 : DBState) (n0 : Notification)
    (uid : Int) (req : SendEmailRequest) (req2 : SendSMSRequest)
    (hto1 : req.«to» ≠ "") (hto2 : req.«to» ≠ "invalid") :
    ((NotificationRepository.Create st n0 uid).1.read = false ∧
      (NotificationRepository.Create st n0 uid).1.status = "sent" ∧
      (NotificationRepository.Create st n0 uid).1.id = itoa st.nextId ∧
      (NotificationRepository.Create st n0 uid).1.id ≠ "" ∧
      (NotificationRepository.Create st n0 uid).1.createdAt = fmtTime st.now ∧
      (NotificationRepository.Create st n0 uid).1.createdAt ≠ "") ∧
    (∃ n, (NotificationService.SendEmail st2 req).1 = Except.ok n ∧
      n.read = false ∧ n.status = "sent" ∧ n.id ≠ "" ∧ n.createdAt ≠ "") ∧
    (∃ n, (NotificationService.SendSMS st3 req2).1 = Except.ok n ∧
      n.read = false ∧ n.status = "sent" ∧ n.id ≠ "" ∧ n.createdAt ≠ "") := by
  refine ⟨⟨rfl, rfl, rfl, itoa_ne_empty _, rfl, fmtTime_ne_empty _⟩, ?_, ?_⟩
  · unfold NotificationService.SendEmail
    rw [if_neg (by simp [hto1, hto2])]
    exact ⟨_, rfl, rfl, rfl, itoa_ne_empty _, fmtTime_ne_empty _⟩
  · exact ⟨_, rfl, rfl, rfl, itoa_ne_empty _, fmtTime_ne_empty _⟩

/-- Claim C2 witness: the property at the seeded state, a concrete
direct insert, and concrete email and SMS requests. -/
theorem c2_witness :
    ((NotificationRepository.Create wDB wN0 1).1.read = false ∧
      (NotificationRepository.Create wDB wN0 1).1.status = "sent" ∧
      (NotificationRepository.Create wDB wN0 1).1.id = itoa wDB.nextId ∧
      (NotificationRepository.Create wDB wN0 1).1.id ≠ "" ∧
      (NotificationRepository.Create wDB wN0 1).1.createdAt
          = fmtTime wDB.now ∧
      (NotificationRepository.Create wDB wN0 1).1.createdAt ≠ "") ∧
    (∃ n, (NotificationService.SendEmail wDB wEmailReq).1 = Except.ok n ∧
      n.read = false ∧ n.status = "sent" ∧ n.id ≠ "" ∧ n.createdAt ≠ "") ∧
    (∃ n, (NotificationService.SendSMS wDB wSMSReq).1 = Except.ok n ∧
      n.read = false ∧ n.status = "sent" ∧ n.id ≠ "" ∧ n.createdAt ≠ "") :=
  c2_created_entity wDB wDB wDB wN0 1 wEmailReq wSMSReq
    (by decide) (by decide)

/-- Claim C8: GetNotification fails with the not-found condition exactly
when the id string does not parse or no stored row has that id (both
surfaced as the same condition), and a successful result is the entity
of the matching row. -/
theorem c8_getNotification (st : DBState) (id : String) :
    (NotificationService.GetNotification st id
        = Except.error ServiceErr.notificationNotFound ↔
      atoi? id = none ∨
        ∃ nid, atoi? id = some nid ∧ ∀ r ∈ st.rows, r.id ≠ nid) ∧
    (∀ nid r, atoi? id = some nid →
        st.rows.find? (fun r2 => r2.id == nid) = some r →
        NotificationService.GetNotification st id
          = Except.ok (rowToNotification r)) := by
  constructor
  · unfold NotificationService.GetNotification
    cases h : atoi? id with
    | none => simp
    | some nid =>
      simp only []
      unfold NotificationRepository.FindByID
      cases hf : st.rows.find? (fun r => r.id == nid) with
      | none =>
        simp only [Option.map_none']
        constructor
        · intro _
          refine Or.inr ⟨nid, rfl, ?_⟩
          intro r hr heq
          have hnp := List.find?_eq_none.mp hf r hr
          simp [heq] at hnp
        · intro _; trivial
      | some r =>
        simp only [Option.map_some']
        constructor
        · intro hcontra
          exact Except.noConfusion hcontra
        · rintro (hnone | ⟨nid2, hnid2, hall⟩)
          · exact Option.noConfusion hnone
          · injection hnid2 with hh
            subst hh
            have hmem := List.mem_of_find?_eq_some hf
            have hpred := List.find?_some hf
            have hid : r.id = nid := by simpa using hpred
            exact absurd hid (hall r hmem)
  · intro nid r hp hf
    unfold NotificationService.GetNotification NotificationRepository.FindByID
    rw [hp]
    dsimp only
    rw [hf]
    rfl

/-- Claim C8 witness: in the seeded state, a non-numeric id fails with
not-found and the id of the first row is returned as its entity. -/
theorem c8_witness :
    (atoi? "1" = some 1 ∧
        wDB.rows.find? (fun r2 => r2.id == 1) = some wRow1) ∧
    NotificationService.GetNotification wDB "1"
      = Except.ok (rowToNotification wRow1) :=
  ⟨⟨by decide, by decide⟩,
    (c8_getNotification wDB "1").2 1 wRow1 (by decide) (by decide)⟩

/-- Claim C7: CountUnread rejects an empty, unparseable, or non-positive
identity with an invalid-identity condition whose value is independent
of the stored state, and for a valid positive identity returns the
unread count, which equals the user total minus the user read count. -/
theorem c7_countUnread (st : DBState) (s : String) :
    ((s = "" ∨ atoi? s = none ∨ (∃ uid, atoi? s = some uid ∧ uid ≤ 0)) →
        ∃ m, ∀ st2, NotificationService.CountUnread st2 s
            = Except.error (ServiceErr.invalidIdentity m)) ∧
    (∀ uid, atoi? s = some uid → 0 < uid →
        NotificationService.CountUnread st s
          = Except.ok ((st.rows.filter (fun r => r.userId == uid)).length
              - (st.rows.filter (fun r => r.userId == uid && r.read)).length)) := by
  constructor
  · intro hbad
    rcases hbad with he | hn | ⟨uid, hu, hle⟩
    · subst he
      exact ⟨"user_id is required", fun st2 => rfl⟩
    · by_cases hs : s = ""
      · subst hs
        exact ⟨"user_id is required", fun st2 => rfl⟩
      · refine ⟨"invalid user_id: " ++ s, fun st2 => ?_⟩
        unfold NotificationService.CountUnread
        rw [if_neg hs, hn]
    · have hs : s ≠ "" := ne_empty_of_atoi?_eq_some hu
      refine ⟨"invalid user_id: " ++ s, fun st2 => ?_⟩
      unfold NotificationService.CountUnread
      rw [if_neg hs, hu]
      dsimp only
      rw [if_pos hle]
  · intro uid hu hpos
    have hs : s ≠ "" := ne_empty_of_atoi?_eq_some hu
    unfold NotificationService.CountUnread
    rw [if_neg hs, hu]
    dsimp only
    rw [if_neg (by omega)]
    unfold NotificationRepository.CountUnreadByUserID
    rw [length_filter_unread st.rows uid]

/-- Claim C7 witness: the empty identity fails independently of state,
and user 1 of the seeded state has two rows of which one is read. -/
theorem c7_witness :
    (∃ m, ∀ st2, NotificationService.CountUnread st2 ""
        = Except.error (ServiceErr.invalidIdentity m)) ∧
    NotificationService.CountUnread wDB "1"
      = Except.ok ((wDB.rows.filter (fun r => r.userId == 1)).length
          - (wDB.rows.filter (fun r => r.userId == 1 && r.read)).length) :=
  ⟨(c7_countUnread wDB "").1 (Or.inl rfl),
    (c7_countUnread wDB "1").2 1 (by decide) (by decide)⟩

/-- Claim C3: the service MarkAsRead fails with not-found when the id
does not parse or the repository reports zero rows affected; otherwise
it re-fetches and returns the updated entity, which is read and has the
same id and created-at as the entity a fetch before the call returns. -/
theorem c3_markAsRead_service (st : DBState) (id : String) :
    (atoi? id = none →
        NotificationService.MarkAsRead st id
          = (Except.error ServiceErr.notificationNotFound, st)) ∧
    (∀ nid, atoi? id = some nid → (∀ r ∈ st.rows, r.id ≠ nid) →
        (NotificationService.MarkAsRead st id).1
          = Except.error ServiceErr.notificationNotFound) ∧
    (∀ nid r, atoi? id = some nid →
        st.rows.find? (fun r2 => r2.id == nid) = some r →
        (NotificationService.MarkAsRead st id).1
            = Except.ok (rowToNotification { r with read := true }) ∧
          (rowToNotification { r with read := true }).read = true ∧
          (rowToNotification { r with read := true }).id
              = (rowToNotification r).id ∧
          (rowToNotification { r with read := true }).createdAt
              = (rowToNotification r).createdAt) := by
  refine ⟨?_, ?_, ?_⟩
  · intro hn
    unfold NotificationService.MarkAsRead
    rw [hn]
  · intro nid hp hnone
    unfold NotificationService.MarkAsRead
    rw [hp]
    dsimp only
    rw [if_neg (by
      simp only [NotificationRepository.MarkAsRead, decide_eq_true_eq,
        Nat.not_lt, Nat.le_zero, List.countP_eq_zero, beq_iff_eq]
      exact hnone)]
  · intro nid r hp hf
    have hid : r.id = nid := by simpa using List.find?_some hf
    have hpos : 0 < st.rows.countP (fun r2 => r2.id == nid) :=
      List.countP_pos_iff.mpr ⟨r, List.mem_of_find?_eq_some hf, by simp [hid]⟩
    refine ⟨?_, rfl, rfl, rfl⟩
    unfold NotificationService.MarkAsRead
    rw [hp]
    dsimp only
    rw [if_pos (by simp [NotificationRepository.MarkAsRead, hpos])]
    unfold NotificationService.GetNotification
    rw [hp]
    unfold NotificationRepository.FindByID
    simp only [NotificationRepository.MarkAsRead]
    rw [NotificationRepository.find?_map_markRow, hf]
    simp only [Option.map_some']
    rw [NotificationRepository.markRow_of_eq nid r hid]

/-- Claim C3 witness: marking row 1 of the seeded state returns its
entity with read true and unchanged id and created-at. -/
theorem c3_witness :
    (NotificationService.MarkAsRead wDB "1").1
        = Except.ok (rowToNotification { wRow1 with read := true }) ∧
      (rowToNotification { wRow1 with read := true }).read = true ∧
      (rowToNotification { wRow1 with read := true }).id
          = (rowToNotification wRow1).id ∧
      (rowToNotification { wRow1 with read := true }).createdAt
          = (rowToNotification wRow1).createdAt :=
  (c3_markAsRead_service wDB "1").2.2 1 wRow1 (by decide) (by decide)

/-- Claim C1 counterexample: repository Create called with an empty
title and the non-empty message "m" returns the entity with title still
empty, not populated from the message — so Create does not apply the
coalescing invariant to the entity it returns to the caller (it applies
it only to the values it stores). -/
theorem c1_counterexample :
    ((NotificationRepository.Create { rows := [], nextId := 1, now := 0 }
        { id := "", type := "promotion", title := "", message := "m",
          status := "", read := false, createdAt := "" } 1).1).title = "" ∧
    ((NotificationRepository.Create { rows := [], nextId := 1, now := 0 }
        { id := "", type := "promotion", title := "", message := "m",
          status := "", read := false, createdAt := "" } 1).1).message = "m" :=
  ⟨rfl, rfl⟩

/-- Claim C1 (amended): the read paths FindByID and ListByUserID (and
the service reads built on them) return entities with both fields equal
to the non-empty value whenever exactly one of the stored title/message
is empty; Create coalesces the values it stores — so subsequent reads
satisfy the invariant — but the entity Create itself returns keeps the
caller-supplied title and message unchanged. -/
theorem c1_amended_coalescing (st : DBState) (r : Row) (n0 : Notification)
    (uid : Int) :
    (r.title.getD "" = "" → r.message.getD "" ≠ "" →
        (rowToNotification r).title = r.message.getD "" ∧
        (rowToNotification r).message = r.message.getD "") ∧
    (r.message.getD "" = "" → r.title.getD "" ≠ "" →
        (rowToNotification r).title = r.title.getD "" ∧
        (rowToNotification r).message = r.title.getD "") ∧
    (∀ nid n, NotificationRepository.FindByID st nid = some n →
        ∃ r2 ∈ st.rows, n = rowToNotification r2) ∧
    (∀ l n, NotificationRepository.ListByUserID st uid = some l → n ∈ l →
        ∃ r2 ∈ st.rows, n = rowToNotification r2) ∧
    (n0.title = "" → n0.message ≠ "" →
        (NotificationRepository.Create st n0 uid).2.rows
          = st.rows ++ [{ id := st.nextId, userId := uid,
                          title := some n0.message,
                          message := some n0.message,
                          type := some n0.type, read := false,
                          createdAt := st.now }]) ∧
    (n0.message = "" → n0.title ≠ "" →
        (NotificationRepository.Create st n0 uid).2.rows
          = st.rows ++ [{ id := st.nextId, userId := uid,
                          title := some n0.title,
                          message := some n0.title,
                          type := some n0.type, read := false,
                          createdAt := st.now }]) ∧
    ((NotificationRepository.Create st n0 uid).1.title = n0.title ∧
      (NotificationRepository.Create st n0 uid).1.message = n0.message) := by
  refine ⟨?_, ?_, ?_, ?_, ?_, ?_, rfl, rfl⟩
  · intro ht hm
    constructor <;> simp [rowToNotification, ht, hm]
  · intro hm ht
    constructor <;> simp [rowToNotification, hm, ht]
  · intro nid n hfind
    unfold NotificationRepository.FindByID at hfind
    cases hf : st.rows.find? (fun r2 => r2.id == nid) with
    | none => rw [hf] at hfind; exact Option.noConfusion hfind
    | some r2 =>
      rw [hf] at hfind
      injection hfind with hn
      exact ⟨r2, List.mem_of_find?_eq_some hf, hn.symm⟩
  · intro l n hlist hmem
    have hrep : NotificationRepository.ListByUserID st uid
        = if ((List.insertionSort NotificationRepository.rowGE
              (st.rows.filter (fun r2 => r2.userId == uid))).map
                rowToNotification).isEmpty
          then none
          else some ((List.insertionSort NotificationRepository.rowGE
              (st.rows.filter (fun r2 => r2.userId == uid))).map
                rowToNotification) := rfl
    rw [hrep] at hlist
    split_ifs at hlist
    injection hlist with hl
    rw [← hl] at hmem
    obtain ⟨r2, hr2, hconv⟩ := List.mem_map.mp hmem
    have hr2' : r2 ∈ st.rows.filter (fun r3 => r3.userId == uid) :=
      (List.perm_insertionSort NotificationRepository.rowGE _).mem_iff.mp hr2
    exact ⟨r2, (List.mem_filter.mp hr2').1, hconv.symm⟩
  · intro ht hm
    simp [NotificationRepository.Create, ht, hm]
  · intro hm ht
    simp [NotificationRepository.Create, hm, ht]

/-- Claim C1 witness: the seeded row with empty title reads back with
both fields equal to its message, and a concrete Create stores the
coalesced row while returning the original fields. -/
theorem c1_witness :
    ((rowToNotification wRow2).title = "Promo text" ∧
      (rowToNotification wRow2).message = "Promo text") ∧
    ((NotificationRepository.Create wDB wN0 1).1.title = wN0.title ∧
      (NotificationRepository.Create wDB wN0 1).1.message = wN0.message) :=
  ⟨(c1_amended_coalescing wDB wRow2 wN0 1).1 (by decide) (by decide),
    (c1_amended_coalescing wDB wRow2 wN0 1).2.2.2.2.2.2⟩

/-- Claim C4: over every reachable sequence of service operations, each
stored row survives with its identity and immutable columns unchanged
and its read flag monotone (never true back to false), and any row an
operation adds whose key was not present before is stored unread — so
the only exposed mutation is the single unread-to-read transition and
nothing is ever deleted. -/
theorem c4_read_monotone_no_delete (st : DBState) (ops : List Op) (r : Row)
    (h : r ∈ st.rows) :
    (∃ r' ∈ (run st ops).rows, preservedRow r r') ∧
    (∀ s op r2, r2 ∈ (applyOp s op).rows → r2.id ∉ s.rows.map Row.id →
        r2.read = false) :=
  ⟨run_preserves st ops r h,
    fun s op r2 hm hf => applyOp_fresh_unread s op r2 hm hf⟩

/-- Claim C4 witness: the unread seeded row survives a concrete workload
of marking, sending, and reads. -/
theorem c4_witness :
    wRow1 ∈ wDB.rows ∧
    ((∃ r' ∈ (run wDB [Op.markAsRead "1", Op.sendEmail wEmailReq,
        Op.getNotification "1", Op.countUnread "1"]).rows,
          preservedRow wRow1 r') ∧
      (∀ s op r2, r2 ∈ (applyOp s op).rows → r2.id ∉ s.rows.map Row.id →
          r2.read = false)) :=
  ⟨by decide,
    c4_read_monotone_no_delete wDB
      [Op.markAsRead "1", Op.sendEmail wEmailReq,
        Op.getNotification "1", Op.countUnread "1"] wRow1 (by decide)⟩

/-- Claim C10 counterexample: for a user with zero notifications the
repository ListByUserID returns the nil slice (modelled `none`, the
value that marshals as JSON null), not an empty collection — the claim
that it never returns a null/absent result fails at the repository. -/
theorem c10_counterexample :
    NotificationRepository.ListByUserID
        { rows := [], nextId := 1, now := 0 } 1 = none ∧
    NotificationRepository.ListByUserID
        { rows := [], nextId := 1, now := 0 } 1 ≠ some [] := by
  exact ⟨rfl, by decide⟩

/-- Claim C10 (amended): ListByUserID returns exactly the stored
notifications of the user ordered by created-at descending, but for a
user with zero notifications it yields the nil slice (`none`); the
service ListNotifications built on it converts that nil slice to an
empty collection, so service callers always receive the ordered list
and never a null/absent result. -/
theorem c10_amended_list (st : DBState) (uid : Int) (s : String)
    (hs : atoi? s = some uid) :
    (NotificationService.ListNotifications st s
        = (List.insertionSort NotificationRepository.rowGE
            (st.rows.filter (fun r => r.userId == uid))).map
              rowToNotification) ∧
    List.Sorted NotificationRepository.rowGE
      (List.insertionSort NotificationRepository.rowGE
        (st.rows.filter (fun r => r.userId == uid))) ∧
    (List.insertionSort NotificationRepository.rowGE
        (st.rows.filter (fun r => r.userId == uid))).Perm
      (st.rows.filter (fun r => r.userId == uid)) ∧
    (st.rows.filter (fun r => r.userId == uid) = [] →
        NotificationService.ListNotifications st s = []) ∧
    (NotificationRepository.ListByUserID st uid = none ↔
        st.rows.filter (fun r => r.userId == uid) = []) := by
  have hsne : s ≠ "" := ne_empty_of_atoi?_eq_some hs
  have hrep : NotificationRepository.ListByUserID st uid
      = if ((List.insertionSort NotificationRepository.rowGE
            (st.rows.filter (fun r => r.userId == uid))).map
              rowToNotification).isEmpty
        then none
        else some ((List.insertionSort NotificationRepository.rowGE
            (st.rows.filter (fun r => r.userId == uid))).map
              rowToNotification) := rfl
  have hperm := List.perm_insertionSort NotificationRepository.rowGE
      (st.rows.filter (fun r => r.userId == uid))
  have hsvc : NotificationService.ListNotifications st s
      = (List.insertionSort NotificationRepository.rowGE
          (st.rows.filter (fun r => r.userId == uid))).map rowToNotification := by
    unfold NotificationService.ListNotifications
    rw [if_neg hsne, hs]
    dsimp only
    rw [hrep]
    split_ifs with hemp
    · rw [List.isEmpty_iff] at hemp
      rw [hemp]
    · rfl
  refine ⟨hsvc, List.sorted_insertionSort NotificationRepository.rowGE _,
    hperm, ?_, ?_⟩
  · intro hnil
    rw [hsvc, hnil]
    rfl
  · rw [hrep]
    constructor
    · intro hnone
      split_ifs at hnone with hemp
      rw [List.isEmpty_iff, List.map_eq_nil_iff] at hemp
      have hp2 := hperm.symm
      rw [hemp] at hp2
      exact hp2.eq_nil
    · intro hnil
      rw [hnil]
      rfl

/-- Claim C10 witness: in the seeded state, user 1 receives the two rows
most recent first from the service, and the repository result for a user
with no rows is nil exactly because the filter is empty. -/
theorem c10_witness :
    NotificationService.ListNotifications wDB "1"
      = (List.insertionSort NotificationRepository.rowGE
          (wDB.rows.filter (fun r => r.userId == 1))).map rowToNotification :=
  (c10_amended_list wDB 1 "1" (by decide)).1

end NotifSvc
